import Mathlib

/-!
# subdb: fingerprinting and request/response contract

A shallow embedding of `subdb.go` (package `subdb`): the fingerprint function
`hash`, its wrapper `hashHelper`, the two HTTP helpers `getRequest` and
`postRequest`, and the four public operations `Languages`, `Search`,
`Download` and `Upload`.

Conventions of the embedding:
* a byte is a natural number below 256, a byte slice is a `List Nat`;
* a string is a sequence of runes (a Lean `String`);
* a byte source is an open regular file: a read returns the bytes available at
  the offset, up to the length of the buffer;
* a Go `(T, error)` result is a pair `T × Option Error`, `none` being `nil`;
* the operating system and the network are an explicit environment `Env`;
  every system call and every HTTP exchange is recorded in a trace of `Event`s;
* a run-time panic (nil dereference) is the outcome `Outcome.panics`.
-/

namespace SubDB

/-! ## Constants -/

/-- The production endpoint (`endPoint`). -/
def endPoint : String := "http://api.thesubdb.com"

/-- The sandbox endpoint (`sandboxEndPoint`). -/
def sandboxEndPoint : String := "http://sandbox.thesubdb.com"

/-- The constant `minFileSize = 2 * (64 * 1024)`. -/
def minFileSize : Nat := 2 * (64 * 1024)

/-- The constant `readSize = 64 * 1024` local to `hash`. -/
def readSize : Nat := 64 * 1024

/-! ## Errors -/

/-- The error numbers of the operating system that the code distinguishes. -/
inductive Errno where
  | ENOENT
  | EACCES
  | EINVAL
  | other (code : Nat)
  deriving DecidableEq, Repr

/-- An `*os.PathError`: operation, path and error number. -/
structure PathError where
  op : String
  path : String
  errno : Errno
  deriving DecidableEq, Repr

/-- The error values of the package. The first five are the package-level
sentinels created with `errors.New`; `text msg` is a fresh `errors.New(msg)`;
`path` is an error of the `os` package, `net` one of `net/http`, and `EOF` is
`io.EOF`. -/
inductive Error where
  | ErrNoUserAgent
  | ErrNoSubtitle
  | ErrSmallFileSize
  | ErrDuplicated
  | ErrInvalidMediaType
  | EOF
  | path (e : PathError)
  | net (msg : String)
  | text (msg : String)
  deriving DecidableEq, Repr

/-- The message of an error (`err.Error()`). -/
def Error.message : Error → String
  | .ErrNoUserAgent => "no user agent set required to access SubDB API"
  | .ErrNoSubtitle => "no subtitle found for the requested hash on the server"
  | .ErrSmallFileSize => "the supplied file is too small"
  | .ErrDuplicated => "subtitle file already exists in database"
  | .ErrInvalidMediaType => "subtitle file is not supported by SubDB"
  | .EOF => "EOF"
  | .path e => e.op ++ " " ++ e.path
  | .net msg => msg
  | .text msg => msg

/-! ## MD5 (`crypto/md5`, RFC 1321) -/

/-- Rotate a 32-bit word left by `n` bits. -/
def rotl32 (x n : Nat) : Nat :=
  ((x <<< n) ||| (x >>> (32 - n))) % 2 ^ 32

/-- The per-round shift amounts. -/
def md5S : List Nat :=
  [7, 12, 17, 22, 7, 12, 17, 22, 7, 12, 17, 22, 7, 12, 17, 22,
   5, 9, 14, 20, 5, 9, 14, 20, 5, 9, 14, 20, 5, 9, 14, 20,
   4, 11, 16, 23, 4, 11, 16, 23, 4, 11, 16, 23, 4, 11, 16, 23,
   6, 10, 15, 21, 6, 10, 15, 21, 6, 10, 15, 21, 6, 10, 15, 21]

/-- The per-round additive constants. -/
def md5K : List Nat :=
  [0xd76aa478, 0xe8c7b756, 0x242070db, 0xc1bdceee,
   0xf57c0faf, 0x4787c62a, 0xa8304613, 0xfd469501,
   0x698098d8, 0x8b44f7af, 0xffff5bb1, 0x895cd7be,
   0x6b901122, 0xfd987193, 0xa679438e, 0x49b40821,
   0xf61e2562, 0xc040b340, 0x265e5a51, 0xe9b6c7aa,
   0xd62f105d, 0x02441453, 0xd8a1e681, 0xe7d3fbc8,
   0x21e1cde6, 0xc33707d6, 0xf4d50d87, 0x455a14ed,
   0xa9e3e905, 0xfcefa3f8, 0x676f02d9, 0x8d2a4c8a,
   0xfffa3942, 0x8771f681, 0x6d9d6122, 0xfde5380c,
   0xa4beea44, 0x4bdecfa9, 0xf6bb4b60, 0xbebfbc70,
   0x289b7ec6, 0xeaa127fa, 0xd4ef3085, 0x04881d05,
   0xd9d4d039, 0xe6db99e5, 0x1fa27cf8, 0xc4ac5665,
   0xf4292244, 0x432aff97, 0xab9423a7, 0xfc93a039,
   0x655b59c3, 0x8f0ccc92, 0xffeff47d, 0x85845dd1,
   0x6fa87e4f, 0xfe2ce6e0, 0xa3014314, 0x4e0811a1,
   0xf7537e82, 0xbd3af235, 0x2ad7d2bb, 0xeb86d391]

/-- The four 32-bit words of the MD5 chaining state. -/
structure MD5State where
  a : Nat
  b : Nat
  c : Nat
  d : Nat
  deriving DecidableEq, Repr

/-- The initial chaining state. -/
def md5Init : MD5State :=
  ⟨0x67452301, 0xefcdab89, 0x98badcfe, 0x10325476⟩

/-- Bitwise complement of a 32-bit word. -/
def not32 (x : Nat) : Nat := x ^^^ 0xffffffff

/-- The little-endian 32-bit word made of four bytes. -/
def leWord (b0 b1 b2 b3 : Nat) : Nat :=
  b0 + 256 * b1 + 65536 * b2 + 16777216 * b3

/-- The sixteen little-endian words of a 64-byte block. -/
def blockWords : List Nat → List Nat
  | b0 :: b1 :: b2 :: b3 :: rest => leWord b0 b1 b2 b3 :: blockWords rest
  | _ => []

/-- One of the 64 steps of the compression function. -/
def md5Step (m : List Nat) (s : MD5State) (i : Nat) : MD5State :=
  let fg : Nat × Nat :=
    if i < 16 then ((s.b &&& s.c) ||| (not32 s.b &&& s.d), i)
    else if i < 32 then ((s.d &&& s.b) ||| (not32 s.d &&& s.c), (5 * i + 1) % 16)
    else if i < 48 then (s.b ^^^ s.c ^^^ s.d, (3 * i + 5) % 16)
    else (s.c ^^^ (s.b ||| not32 s.d), (7 * i) % 16)
  let f := (fg.1 + s.a + md5K.getD i 0 + m.getD fg.2 0) % 2 ^ 32
  ⟨s.d, (s.b + rotl32 f (md5S.getD i 0)) % 2 ^ 32, s.b, s.c⟩

/-- The compression function: absorb one 64-byte block into the state. -/
def md5Block (s : MD5State) (block : List Nat) : MD5State :=
  let t := (List.range 64).foldl (md5Step (blockWords block)) s
  ⟨(s.a + t.a) % 2 ^ 32, (s.b + t.b) % 2 ^ 32, (s.c + t.c) % 2 ^ 32, (s.d + t.d) % 2 ^ 32⟩

/-- The little-endian bytes of a 32-bit word. -/
def le32 (w : Nat) : List Nat :=
  [w % 256, w / 256 % 256, w / 65536 % 256, w / 16777216 % 256]

/-- The little-endian bytes of a 64-bit word. -/
def le64 (w : Nat) : List Nat :=
  le32 (w % 2 ^ 32) ++ le32 (w / 2 ^ 32 % 2 ^ 32)

/-- The padded message: a 0x80 byte, zero bytes up to 56 modulo 64, and the
bit length as a little-endian 64-bit word. -/
def md5Pad (msg : List Nat) : List Nat :=
  msg ++ 0x80 :: List.replicate ((119 - msg.length % 64) % 64) 0 ++ le64 (8 * msg.length)

/-- Absorb `n` consecutive 64-byte blocks. -/
def md5Blocks : Nat → MD5State → List Nat → MD5State
  | 0, s, _ => s
  | n + 1, s, bytes => md5Blocks n (md5Block s (bytes.take 64)) (bytes.drop 64)

/-- The 16-byte MD5 digest of a byte string (`h.Sum(nil)` after writing `msg`). -/
def md5Sum (msg : List Nat) : List Nat :=
  let p := md5Pad msg
  let s := md5Blocks (p.length / 64) md5Init p
  le32 s.a ++ le32 s.b ++ le32 s.c ++ le32 s.d

/-! ## Hexadecimal encoding (`fmt.Sprintf("%x", bytes)`) -/

/-- The lower-case hexadecimal digit of a value below 16. -/
def hexDigit (n : Nat) : Char :=
  "0123456789abcdef".data.getD n '0'

/-- The two lower-case hexadecimal digits of each byte, in order. -/
def hexEncode (bytes : List Nat) : String :=
  String.mk (bytes.flatMap fun b => [hexDigit (b / 16 % 16), hexDigit (b % 16)])

/-! ## Files (`*os.File` on a regular file, as an `io.ReadSeeker`) -/

/-- An open regular file: its name, its bytes and the current offset. -/
structure File where
  name : String
  data : List Nat
  off : Nat
  deriving DecidableEq, Repr

/-- The result of `f.Read(p)`: the buffer after the call, the number of bytes
read, the error and the file after the call. -/
structure ReadResult where
  buf : List Nat
  n : Nat
  err : Option Error
  file : File

/-- The method `Read` of a regular file. At the end of the file nothing is
read and the error is `io.EOF` (`nil` for an empty buffer); otherwise the
bytes available at the offset, at most `len(p)` of them, are copied into the
front of `p` and the offset advances. -/
def File.Read (f : File) (p : List Nat) : ReadResult :=
  if f.data.length ≤ f.off then
    if p.length = 0 then ⟨p, 0, none, f⟩ else ⟨p, 0, some .EOF, f⟩
  else
    let chunk := (f.data.drop f.off).take p.length
    ⟨chunk ++ p.drop chunk.length, chunk.length, none, { f with off := f.off + chunk.length }⟩

/-- The constant `os.SEEK_END`. -/
def SEEK_END : Nat := 2

/-- The method `Seek`: the new offset is relative to the start (whence 0), the
current offset (1) or the end (2); a negative result is refused with EINVAL. -/
def File.Seek (f : File) (offset : Int) (whence : Nat) : (Int × Option Error) × File :=
  let base : Option Int :=
    if whence = 0 then some 0
    else if whence = 1 then some (f.off : Int)
    else if whence = 2 then some (f.data.length : Int)
    else none
  match base with
  | none => ((0, some (.path ⟨"seek", f.name, .EINVAL⟩)), f)
  | some b =>
    if b + offset < 0 then ((0, some (.path ⟨"seek", f.name, .EINVAL⟩)), f)
    else ((b + offset, none), { f with off := (b + offset).toNat })

/-- The body of `hash` for a given value `size` of its local constant
`readSize`. -/
def hashSized (size : Nat) (rs : File) : String × Option Error :=
  let first := List.replicate size 0
  let last := List.replicate size 0
  let r1 := rs.Read first
  match r1.err with
  | some err => ("", some err)
  | none =>
    let s := r1.file.Seek (-(size : Int)) SEEK_END
    match s.1.2 with
    | some err => ("", some err)
    | none =>
      let r2 := s.2.Read last
      match r2.err with
      | some err => ("", some err)
      | none =>
        let b := r1.buf ++ r2.buf
        (hexEncode (md5Sum b), none)

/-- The function `hash`: hashes the first and last 64kb of a file. -/
def hash (rs : File) : String × Option Error :=
  hashSized readSize rs

/-! ## The outside world -/

/-- The file part of a multipart form. -/
structure FormFile where
  fieldName : String
  fileName : String
  content : List Nat
  deriving DecidableEq, Repr

/-- An HTTP request as the code builds it. -/
structure Request where
  method : String
  url : String
  userAgent : String
  close : Bool
  timeoutSeconds : Option Nat
  formFile : Option FormFile
  formFields : List (String × String)
  deriving DecidableEq, Repr

/-- An HTTP response: the status code and the result of reading the body. -/
structure Response where
  status : Nat
  body : Except String String

/-- What the code observes of the operating system, the network and the
tables of the standard library. -/
structure Env where
  /-- The size reported by `os.Stat`, or its error. -/
  stat : String → Except PathError Nat
  /-- The content of the file opened by `os.Open`, or its error. -/
  openFile : String → Except PathError (List Nat)
  /-- The error of `http.NewRequest(method, url, _)`, if any. -/
  newRequest : String → String → Option String
  /-- The result of `c.Do(req)`. -/
  roundTrip : Request → Except String Response
  /-- The table `http.StatusText`. -/
  statusText : Nat → String
  /-- The case table of `unicode.ToLower` for the runes above ASCII. -/
  lowerTable : Char → Char

/-- The observable actions of a run. -/
inductive Event where
  | stat (name : String)
  | open (name : String)
  | print (msg : String)
  | http (req : Request)
  deriving DecidableEq, Repr

/-- How a call ends: it returns a value, or it panics. -/
inductive Outcome (α : Type) where
  | returns (v : α)
  | panics
  deriving DecidableEq, Repr

/-- A run of a function: the actions performed, in order, and the outcome. -/
structure Run (α : Type) where
  trace : List Event
  out : Outcome α
  deriving DecidableEq, Repr

/-- Whether an action is an HTTP exchange. -/
def Event.isHttp : Event → Bool
  | .http _ => true
  | _ => false

/-- The function `os.IsNotExist`. -/
def IsNotExist : Option Error → Bool
  | some (.path e) => decide (e.errno = .ENOENT)
  | _ => false

/-- The call `os.Stat(fileName)` as the Go pair `(fileInfo, err)`; the file
information is reduced to its size and is `nil` when there is an error. -/
def osStat (env : Env) (fileName : String) : Option Nat × Option Error :=
  match env.stat fileName with
  | .ok size => (some size, none)
  | .error e => (none, some (.path e))

/-- The function `hashHelper`: opens a file and runs `hash` over it. -/
def hashHelper (env : Env) (fileName : String) : Run (String × Option Error) :=
  let st := osStat env fileName
  if IsNotExist st.2 then ⟨[.stat fileName], .returns ("", st.2)⟩
  else
    match st.1 with
    | none => ⟨[.stat fileName], .panics⟩
    | some size =>
      if size < minFileSize then ⟨[.stat fileName], .returns ("", some .ErrSmallFileSize)⟩
      else
        match env.openFile fileName with
        | .error e => ⟨[.stat fileName, .open fileName], .returns ("", some (.path e))⟩
        | .ok data =>
          let h := hash ⟨fileName, data, 0⟩
          match h.2 with
          | some err => ⟨[.stat fileName, .open fileName], .returns ("", some err)⟩
          | none => ⟨[.stat fileName, .open fileName], .returns (h.1, none)⟩

/-! ## HTTP helpers -/

/-- The request built by `getRequest`. -/
def getReq (params userAgent : String) : Request :=
  { method := "GET", url := sandboxEndPoint ++ "/?" ++ params, userAgent := userAgent,
    close := true, timeoutSeconds := some 5, formFile := none, formFields := [] }

/-- The function `getRequest`: performs a HTTP GET request. -/
def getRequest (env : Env) (params userAgent : String) : Run (String × Option Error) :=
  if userAgent = "" then ⟨[], .returns ("", some .ErrNoUserAgent)⟩
  else
    match env.newRequest "GET" (sandboxEndPoint ++ "/?" ++ params) with
    | some msg => ⟨[.print msg], .returns ("", some (.net msg))⟩
    | none =>
      let req := getReq params userAgent
      match env.roundTrip req with
      | .error msg => ⟨[.http req], .returns ("", some (.net msg))⟩
      | .ok resp =>
        if resp.status = 404 then ⟨[.http req], .returns ("", some .ErrNoSubtitle)⟩
        else if resp.status ≠ 200 then
          ⟨[.http req], .returns ("", some (.text (env.statusText resp.status)))⟩
        else
          match resp.body with
          | .error msg => ⟨[.http req], .returns ("", some (.net msg))⟩
          | .ok body => ⟨[.http req], .returns (body, none)⟩

/-- The function `filepath.Base` for slash-separated paths: the last element
of the path, trailing slashes removed. -/
def filepathBase (path : String) : String :=
  if path.data = [] then "."
  else
    let stripped := (path.data.reverse.dropWhile (· = '/')).reverse
    if stripped = [] then "/"
    else String.mk (stripped.reverse.takeWhile (· ≠ '/')).reverse

/-- The request built by `postRequest`. -/
def postReq (hash subtitleFile userAgent : String) (content : List Nat) : Request :=
  { method := "POST", url := endPoint ++ "/?action=upload", userAgent := userAgent,
    close := true, timeoutSeconds := none,
    formFile := some ⟨"file", filepathBase subtitleFile, content⟩,
    formFields := [("hash", hash)] }

/-- The function `postRequest`: performs a HTTP POST to upload a single
subtitle. The multipart body is written to a memory buffer, which cannot
fail. After a completed exchange the variable `err` is `nil`. -/
def postRequest (env : Env) (hash subtitleFile userAgent : String) : Run (Option Error) :=
  match env.openFile subtitleFile with
  | .error e => ⟨[.open subtitleFile], .returns (some (.path e))⟩
  | .ok content =>
    match env.newRequest "POST" (endPoint ++ "/?action=upload") with
    | some msg => ⟨[.open subtitleFile], .returns (some (.net msg))⟩
    | none =>
      let req := postReq hash subtitleFile userAgent content
      match env.roundTrip req with
      | .error msg => ⟨[.open subtitleFile, .http req], .returns (some (.net msg))⟩
      | .ok resp =>
        let err : Option Error := none
        if resp.status = 201 then ⟨[.open subtitleFile, .http req], .returns none⟩
        else if resp.status = 403 then
          ⟨[.open subtitleFile, .http req], .returns (some .ErrDuplicated)⟩
        else if resp.status = 415 then
          ⟨[.open subtitleFile, .http req], .returns (some .ErrInvalidMediaType)⟩
        else ⟨[.open subtitleFile, .http req], .returns err⟩

/-! ## Strings (`strings.Split`, `strings.ToLower`) -/

/-- The function `strings.Index` for a one-character separator; `none` is -1. -/
def Index : List Char → Char → Option Nat
  | [], _ => none
  | x :: xs, c => if x = c then some 0 else (Index xs c).map (· + 1)

/-- The function `strings.Count` for a one-character separator. -/
def Count : List Char → Char → Nat
  | [], _ => 0
  | x :: xs, c => if x = c then Count xs c + 1 else Count xs c

/-- The loop of `genSplit`: cut at the separator at most `k` times, then keep
the rest whole. -/
def genSplitLoop : Nat → List Char → Char → List (List Char)
  | 0, s, _ => [s]
  | k + 1, s, c =>
    match Index s c with
    | none => [s]
    | some m => s.take m :: genSplitLoop k (s.drop (m + 1)) c

/-- The function `strings.Split` for a one-character separator:
`n = Count(s, sep) + 1`, capped at `len(s) + 1`, and `n - 1` cuts. -/
def Split (s : String) (sep : Char) : List String :=
  let n := min (Count s.data sep + 1) (s.data.length + 1)
  (genSplitLoop (n - 1) s.data sep).map String.mk

/-- The ASCII branch of lower-casing: `A`..`Z` move by `'a' - 'A'`. -/
def asciiLower (c : Char) : Char :=
  if 'A'.toNat ≤ c.toNat ∧ c.toNat ≤ 'Z'.toNat then Char.ofNat (c.toNat + ('a'.toNat - 'A'.toNat))
  else c

/-- The function `unicode.ToLower`: ASCII is handled directly, the other
runes go through the case table. -/
def unicodeToLower (tbl : Char → Char) (r : Char) : Char :=
  if r.toNat ≤ 0x7F then asciiLower r else tbl r

/-- The function `strings.ToLower`: an ASCII-only string without upper-case
letters is returned as is, an ASCII-only string is lower-cased bytewise, and
any other string is mapped rune by rune through `unicode.ToLower`. -/
def ToLower (tbl : Char → Char) (s : String) : String :=
  let isASCII := s.data.all fun c => decide (c.toNat < 0x80)
  let hasUpper := s.data.any fun c => decide ('A'.toNat ≤ c.toNat ∧ c.toNat ≤ 'Z'.toNat)
  if isASCII then
    if !hasUpper then s else String.mk (s.data.map asciiLower)
  else String.mk (s.data.map (unicodeToLower tbl))

/-- Whether a rune is an ASCII upper-case letter. -/
def isUpperASCII (c : Char) : Prop := 'A'.toNat ≤ c.toNat ∧ c.toNat ≤ 'Z'.toNat

/-- Being an ASCII upper-case letter is decidable. -/
instance (c : Char) : Decidable (isUpperASCII c) :=
  inferInstanceAs (Decidable ('A'.toNat ≤ c.toNat ∧ c.toNat ≤ 'Z'.toNat))

/-- Two runes that are equal or are the upper-case and the lower-case form of
the same ASCII letter. -/
def sameLetter (a b : Char) : Prop :=
  a = b ∨ (isUpperASCII a ∧ b.toNat = a.toNat + 32) ∨ (isUpperASCII b ∧ a.toNat = b.toNat + 32)

/-- The query string that `Download` passes to `getRequest`. -/
def downloadParams (tbl : Char → Char) (fp langCode : String) : String :=
  "action=download&hash=" ++ fp ++ "&language=" ++ ToLower tbl langCode

/-! ## The API -/

/-- The type `API`. -/
structure API where
  userAgent : String
  deriving DecidableEq, Repr

/-- The method `SetUserAgent`. -/
def API.SetUserAgent (_a : API) (clientName clientVersion clientURL : String) : API :=
  { userAgent := "SubDB/1.0 (" ++ clientName ++ "/" ++ clientVersion ++ "; " ++ clientURL ++ ")" }

/-- Sequencing of two calls: the second runs on the value returned by the
first, a panic ends the run. -/
def Run.andThen {α β : Type} (r : Run α) (k : α → Run β) : Run β :=
  match r.out with
  | .panics => ⟨r.trace, .panics⟩
  | .returns v => ⟨r.trace ++ (k v).trace, (k v).out⟩

/-- The method `Languages`. -/
def API.Languages (env : Env) (a : API) : Run (List String × Option Error) :=
  (getRequest env "action=languages" a.userAgent).andThen fun r =>
    match r.2 with
    | some err => ⟨[], .returns ([], some err)⟩
    | none => ⟨[], .returns (Split r.1 ',', none)⟩

/-- The method `Search`. -/
def API.Search (env : Env) (a : API) (fileName : String) : Run (List String × Option Error) :=
  (hashHelper env fileName).andThen fun h =>
    match h.2 with
    | some err => ⟨[], .returns ([], some err)⟩
    | none =>
      (getRequest env ("action=search&hash=" ++ h.1 ++ "&versions") a.userAgent).andThen fun r =>
        match r.2 with
        | some err => ⟨[], .returns ([], some err)⟩
        | none => ⟨[], .returns (Split r.1 ',', none)⟩

/-- The method `Download`. -/
def API.Download (env : Env) (a : API) (fileName langCode : String) :
    Run (String × Option Error) :=
  (hashHelper env fileName).andThen fun h =>
    match h.2 with
    | some err => ⟨[], .returns ("", some err)⟩
    | none =>
      (getRequest env ("action=download&hash=" ++ h.1 ++ "&language=" ++
          ToLower env.lowerTable langCode) a.userAgent).andThen fun r =>
        match r.2 with
        | some err => ⟨[], .returns ("", some err)⟩
        | none => ⟨[], .returns (r.1, none)⟩

/-- The method `Upload`. -/
def API.Upload (env : Env) (a : API) (fileName subtitlefile : String) : Run (Option Error) :=
  (hashHelper env fileName).andThen fun h =>
    match h.2 with
    | some err => ⟨[], .returns (some err)⟩
    | none => postRequest env h.1 subtitlefile a.userAgent

/-! ## Sample inputs -/

/-- A sample content: `k` bytes `x`, a middle part, `k` bytes `y`. -/
def sampleData (k x y : Nat) (mid : List Nat) : List Nat :=
  List.replicate k x ++ (mid ++ List.replicate k y)

/-- A sample world: every `os.Stat` gives `statResult`, every file opens with
the given content, every request is well formed and is answered with the
given status and body. -/
def sampleEnv (statResult : Except PathError Nat) (content : List Nat) (status : Nat)
    (body : String) : Env :=
  { stat := fun _ => statResult,
    openFile := fun _ => .ok content,
    newRequest := fun _ _ => none,
    roundTrip := fun _ => .ok ⟨status, .ok body⟩,
    statusText := fun code => if code = 500 then "Internal Server Error" else "",
    lowerTable := id }

/-- The fingerprint of the sample file. -/
def sampleFingerprint : String :=
  hexEncode (md5Sum ((sampleData 65536 0 255 []).take readSize
    ++ (sampleData 65536 0 255 []).drop ((sampleData 65536 0 255 []).length - readSize)))

/-! ## Fingerprinting: what `hash` computes -/

theorem md5Sum_length (msg : List Nat) : (md5Sum msg).length = 16 := by
  simp [md5Sum, le32]

theorem hexChars_length (bytes : List Nat) :
    (bytes.flatMap fun b => [hexDigit (b / 16 % 16), hexDigit (b % 16)]).length
      = 2 * bytes.length := by
  induction bytes with
  | nil => rfl
  | cons b bs ih => simp [List.flatMap_cons, ih]; omega

theorem hexEncode_length (bytes : List Nat) : (hexEncode bytes).length = 2 * bytes.length := by
  simp only [hexEncode, String.length]
  exact hexChars_length bytes

theorem hexDigit_mem (n : Nat) (h : n < 16) : hexDigit n ∈ "0123456789abcdef".data := by
  interval_cases n <;> decide

theorem hexEncode_chars (bytes : List Nat) :
    ∀ c ∈ (hexEncode bytes).data, c ∈ "0123456789abcdef".data := by
  intro c hc
  simp only [hexEncode, List.mem_flatMap] at hc
  obtain ⟨b, _, hb⟩ := hc
  simp only [List.mem_cons, List.mem_singleton, List.not_mem_nil, or_false] at hb
  rcases hb with rfl | rfl
  · exact hexDigit_mem _ (Nat.mod_lt _ (by decide))
  · exact hexDigit_mem _ (Nat.mod_lt _ (by decide))

/-- Two test vectors of RFC 1321 for the embedding of MD5. -/
theorem md5Sum_test_vectors :
    hexEncode (md5Sum []) = "d41d8cd98f00b204e9800998ecf8427e"
      ∧ hexEncode (md5Sum [97, 98, 99]) = "900150983cd24fb0d6963f7d28e17f72" := by
  set_option maxRecDepth 100000 in
  decide

/-- A read of `k` bytes at offset 0 of a file that has them fills the buffer
with the first `k` bytes. -/
theorem Read_start (name : String) (data : List Nat) (k : Nat) (hk : 0 < k)
    (hn : k ≤ data.length) :
    (File.Read ⟨name, data, 0⟩ (List.replicate k 0)) =
      ⟨data.take k, k, none, ⟨name, data, k⟩⟩ := by
  have h1 : ¬ data.length ≤ 0 := by omega
  simp [File.Read, h1, Nat.min_eq_left hn]

/-- A read of `k` bytes at `k` bytes before the end fills the buffer with the
last `k` bytes. -/
theorem Read_tail (name : String) (data : List Nat) (k : Nat) (hk : 0 < k)
    (hn : k ≤ data.length) :
    (File.Read ⟨name, data, data.length - k⟩ (List.replicate k 0)) =
      ⟨data.drop (data.length - k), k, none, ⟨name, data, data.length⟩⟩ := by
  have h1 : ¬ data.length ≤ data.length - k := by omega
  have h2 : data.length - (data.length - k) = k := by omega
  simp [File.Read, h1, h2]
  omega

/-- Seeking to `k` bytes before the end succeeds when the file has them. -/
theorem Seek_end (name : String) (data : List Nat) (off k : Nat) (hn : k ≤ data.length) :
    File.Seek ⟨name, data, off⟩ (-(k : Int)) SEEK_END =
      ((((data.length - k : Nat) : Int), none), ⟨name, data, data.length - k⟩) := by
  have h : ¬ ((data.length : Int) + -(k : Int) < 0) := by omega
  have e : (data.length : Int) + -(k : Int) = ((data.length - k : Nat) : Int) := by
    omega
  simp [File.Seek, SEEK_END, h, e]

theorem readSize_pos : 0 < readSize := by
  unfold readSize
  omega

theorem readSize_eq : readSize = 65536 := by
  unfold readSize
  omega

theorem minFileSize_eq : minFileSize = 131072 := by
  unfold minFileSize
  omega

theorem hashSized_of_long (name : String) (data : List Nat) (k : Nat) (hk : 0 < k)
    (hn : k ≤ data.length) :
    hashSized k ⟨name, data, 0⟩ =
      (hexEncode (md5Sum (data.take k ++ data.drop (data.length - k))), none) := by
  simp only [hashSized, Read_start name data k hk hn, Seek_end name data k k hn,
    Read_tail name data k hk hn]

/-- On a freshly opened file of at least 64 KiB, `hash` is the hex MD5 of the
first and the last 64 KiB. -/
theorem hash_of_long (name : String) (data : List Nat) (hn : readSize ≤ data.length) :
    hash ⟨name, data, 0⟩ =
      (hexEncode (md5Sum (data.take readSize ++ data.drop (data.length - readSize))), none) :=
  hashSized_of_long name data readSize readSize_pos hn

/-- The same with the value of `readSize` written out. -/
theorem hash_of_long_lit (name : String) (data : List Nat) (hn : 65536 ≤ data.length) :
    hash ⟨name, data, 0⟩ =
      (hexEncode (md5Sum (data.take 65536 ++ data.drop (data.length - 65536))), none) := by
  have h := hash_of_long name data (by rw [readSize_eq]; exact hn)
  rw [readSize_eq] at h
  exact h

/-- C1: for a freshly opened source of length at least 131072, `hash` returns
without error the hexadecimal encoding of the MD5 digest of the first 65536
bytes followed by the last 65536 bytes; that input has 131072 bytes, the
fingerprint has 32 characters, all of them lower-case hexadecimal digits; and
for a source of exactly 131072 bytes it is the hex MD5 of the whole content. -/
theorem hash_fingerprint (name : String) (data : List Nat) (hn : 131072 ≤ data.length) :
    hash ⟨name, data, 0⟩ =
        (hexEncode (md5Sum (data.take 65536 ++ data.drop (data.length - 65536))), none)
      ∧ (data.take 65536 ++ data.drop (data.length - 65536)).length = 131072
      ∧ (hash ⟨name, data, 0⟩).1.length = 32
      ∧ (∀ c ∈ (hash ⟨name, data, 0⟩).1.data, c ∈ "0123456789abcdef".data)
      ∧ (data.length = 131072 → hash ⟨name, data, 0⟩ = (hexEncode (md5Sum data), none)) := by
  have h := hash_of_long_lit name data (by omega)
  refine ⟨h, ?_, ?_, ?_, ?_⟩
  · simp only [List.length_append, List.length_take, List.length_drop]
    omega
  · rw [h]
    simp only [hexEncode_length, md5Sum_length]
  · rw [h]
    exact hexEncode_chars _
  · intro hlen
    rw [h, hlen]
    simp only [Nat.reduceSub, List.take_append_drop]

/-- The golden input of C1: 65536 bytes 0x00 followed by 65536 bytes 0xFF. -/
theorem hash_fingerprint_witness :
    131072 ≤ (List.replicate 65536 0 ++ List.replicate 65536 255).length
      ∧ hash ⟨"movie.avi", List.replicate 65536 0 ++ List.replicate 65536 255, 0⟩ =
        (hexEncode (md5Sum (List.replicate 65536 0 ++ List.replicate 65536 255)), none) :=
  ⟨by simp only [List.length_append, List.length_replicate]; omega,
   (hash_fingerprint "movie.avi" (List.replicate 65536 0 ++ List.replicate 65536 255)
    (by simp only [List.length_append, List.length_replicate]; omega)).2.2.2.2
    (by simp only [List.length_append, List.length_replicate])⟩

theorem sampleData_length (k x y : Nat) (mid : List Nat) :
    (sampleData k x y mid).length = k + mid.length + k := by
  simp only [sampleData, List.length_append, List.length_replicate]
  omega

theorem sampleData_head (k x y : Nat) (mid : List Nat) :
    (sampleData k x y mid).take k = List.replicate k x :=
  List.take_left' (List.length_replicate _ _)

theorem sampleData_tail (k x y : Nat) (mid : List Nat) :
    (sampleData k x y mid).drop ((sampleData k x y mid).length - k) = List.replicate k y := by
  have e : (sampleData k x y mid).length - k = (List.replicate k x ++ mid).length := by
    rw [sampleData_length]
    simp only [List.length_append, List.length_replicate]
    omega
  rw [e]
  have c : sampleData k x y mid = (List.replicate k x ++ mid) ++ List.replicate k y := by
    simp only [sampleData, List.append_assoc]
  rw [c]
  exact List.drop_left' rfl

theorem sampleData_long (x y : Nat) (mid : List Nat) :
    131072 ≤ (sampleData 65536 x y mid).length :=
  le_of_le_of_eq (by omega) (sampleData_length 65536 x y mid).symm

/-- C9: two freshly opened sources of at least 131072 bytes with the same first
65536 bytes and the same last 65536 bytes have the same fingerprint, whatever
lies in between and whatever their lengths, and the fingerprint is returned
without error; and fingerprinting a file depends on nothing but what stat and
open report for it, so two calls on an unchanged file agree. -/
theorem hash_same_windows (n1 n2 : String) (d1 d2 : List Nat)
    (h1 : 131072 ≤ d1.length) (h2 : 131072 ≤ d2.length)
    (hhead : d1.take 65536 = d2.take 65536)
    (htail : d1.drop (d1.length - 65536) = d2.drop (d2.length - 65536)) :
    hash ⟨n1, d1, 0⟩ = hash ⟨n2, d2, 0⟩
      ∧ (hash ⟨n1, d1, 0⟩).2 = none
      ∧ (∀ (env1 env2 : Env) (fileName : String), env1.stat fileName = env2.stat fileName →
          env1.openFile fileName = env2.openFile fileName →
          hashHelper env1 fileName = hashHelper env2 fileName) := by
  have e1 := hash_of_long_lit n1 d1 (by omega)
  have e2 := hash_of_long_lit n2 d2 (by omega)
  refine ⟨?_, ?_, ?_⟩
  · rw [e1, e2, hhead, htail]
  · rw [e1]
  · intro env1 env2 fileName hs ho
    unfold hashHelper osStat
    rw [hs, ho]

/-- Two sources of different lengths, 131072 and 131074 bytes, with equal
windows. -/
theorem hash_same_windows_witness :
    hash ⟨"a.avi", sampleData 65536 1 2 [], 0⟩ = hash ⟨"b.mkv", sampleData 65536 1 2 [7, 8], 0⟩ :=
  (hash_same_windows "a.avi" "b.mkv" (sampleData 65536 1 2 []) (sampleData 65536 1 2 [7, 8])
    (sampleData_long 1 2 []) (sampleData_long 1 2 [7, 8])
    ((sampleData_head 65536 1 2 []).trans (sampleData_head 65536 1 2 [7, 8]).symm)
    ((sampleData_tail 65536 1 2 []).trans (sampleData_tail 65536 1 2 [7, 8]).symm)).1

/-! ## `hashHelper` -/

theorem Read_err (f : File) (p : List Nat) : (f.Read p).err = none ∨ (f.Read p).err = some .EOF := by
  unfold File.Read
  split
  · split
    · exact Or.inl rfl
    · exact Or.inr rfl
  · exact Or.inl rfl

theorem Seek_err (f : File) (o : Int) (w : Nat) :
    (f.Seek o w).1.2 = none ∨ ∃ e, (f.Seek o w).1.2 = some (.path e) := by
  unfold File.Seek
  dsimp only
  split
  · exact Or.inr ⟨_, rfl⟩
  · split
    · exact Or.inr ⟨_, rfl⟩
    · exact Or.inl rfl

theorem hashSized_err (k : Nat) (f : File) :
    (hashSized k f).2 = none ∨ (hashSized k f).2 = some .EOF
      ∨ ∃ e, (hashSized k f).2 = some (.path e) := by
  unfold hashSized
  dsimp only
  rcases Read_err f (List.replicate k 0) with h1 | h1
  · rw [h1]
    dsimp only
    rcases Seek_err (f.Read (List.replicate k 0)).file (-(k : Int)) SEEK_END with h2 | ⟨e, h2⟩
    · rw [h2]
      dsimp only
      rcases Read_err ((f.Read (List.replicate k 0)).file.Seek (-(k : Int)) SEEK_END).2
        (List.replicate k 0) with h3 | h3
      · rw [h3]
        exact Or.inl rfl
      · rw [h3]
        exact Or.inr (Or.inl rfl)
    · rw [h2]
      exact Or.inr (Or.inr ⟨e, rfl⟩)
  · rw [h1]
    exact Or.inr (Or.inl rfl)

theorem hash_err_ne_small (f : File) : (hash f).2 ≠ some .ErrSmallFileSize := by
  unfold hash
  rcases hashSized_err readSize f with h | h | ⟨e, h⟩ <;> rw [h] <;> simp


theorem hashHelper_small (env : Env) (fileName : String) (size : Nat)
    (hs : env.stat fileName = .ok size) (hlt : size < minFileSize) :
    hashHelper env fileName = ⟨[.stat fileName], .returns ("", some .ErrSmallFileSize)⟩ := by
  unfold hashHelper osStat
  rw [hs]
  simp only [IsNotExist, Bool.false_eq_true, if_false, hlt, if_true]

theorem hashHelper_not_small (env : Env) (fileName : String) (size : Nat)
    (hs : env.stat fileName = .ok size) (hge : minFileSize ≤ size) (s : String) :
    (hashHelper env fileName).out ≠ .returns (s, some .ErrSmallFileSize) := by
  have hlt : ¬ size < minFileSize := by omega
  unfold hashHelper osStat
  rw [hs]
  simp only [IsNotExist, Bool.false_eq_true, if_false, hlt]
  cases ho : env.openFile fileName with
  | error e => simp
  | ok data =>
    dsimp only
    cases hh : (hash ⟨fileName, data, 0⟩).2 with
    | none => simp
    | some err =>
      have := hash_err_ne_small ⟨fileName, data, 0⟩
      rw [hh] at this
      simp only [ne_eq, Outcome.returns.injEq, Prod.mk.injEq, Option.some.injEq, not_and]
      intro _ h
      exact this (by rw [h])

/-- C5: for an existing file whose size `os.Stat` reports, `hashHelper` fails
with `ErrSmallFileSize` if and only if the size is below 131072; below it the
run is the stat alone (the file is not opened) and the result is the empty
fingerprint with exactly that error; at exactly 131072 bytes the file is not
rejected as too small. -/
theorem hashHelper_small_iff (env : Env) (fileName : String) (size : Nat)
    (hs : env.stat fileName = .ok size) :
    ((∃ s, (hashHelper env fileName).out = .returns (s, some .ErrSmallFileSize))
        ↔ size < 131072)
      ∧ (size < 131072 →
          hashHelper env fileName = ⟨[.stat fileName], .returns ("", some .ErrSmallFileSize)⟩)
      ∧ (size = 131072 →
          ∀ s, (hashHelper env fileName).out ≠ .returns (s, some .ErrSmallFileSize)) := by
  have hm := minFileSize_eq
  refine ⟨⟨?_, ?_⟩, ?_, ?_⟩
  · rintro ⟨s, h⟩
    by_contra hge
    exact hashHelper_not_small env fileName size hs (by omega) s h
  · intro hlt
    exact ⟨"", by rw [hashHelper_small env fileName size hs (by omega)]⟩
  · intro hlt
    exact hashHelper_small env fileName size hs (by omega)
  · intro he s
    exact hashHelper_not_small env fileName size hs (by omega) s

/-- A file of 131071 bytes. -/
theorem hashHelper_small_iff_witness :
    hashHelper (sampleEnv (.ok 131071) [] 200 "") "movie.avi" =
      ⟨[.stat "movie.avi"], .returns ("", some .ErrSmallFileSize)⟩ :=
  (hashHelper_small_iff (sampleEnv (.ok 131071) [] 200 "") "movie.avi" 131071 rfl).2.1
    (by omega)

/-- C6, evaluated where the code departs from it: when `os.Stat` fails with
a permission error, `hashHelper` does not return the error, it dereferences
the nil file information and panics. -/
theorem hashHelper_stat_denied_panics :
    hashHelper (sampleEnv (.error ⟨"stat", "private/movie.avi", .EACCES⟩) [] 200 "")
        "private/movie.avi" = ⟨[.stat "private/movie.avi"], .panics⟩ := by
  decide

/-- What `hashHelper` does on every failure of `os.Stat`. -/
theorem hashHelper_stat_error (env : Env) (fileName : String) (e : PathError)
    (hs : env.stat fileName = .error e) :
    hashHelper env fileName =
      if e.errno = .ENOENT then ⟨[.stat fileName], .returns ("", some (.path e))⟩
      else ⟨[.stat fileName], .panics⟩ := by
  unfold hashHelper osStat
  rw [hs]
  by_cases h : e.errno = .ENOENT <;> simp [IsNotExist, h]

/-! ## The HTTP helpers -/

/-- C2, evaluated where the code departs from it: an upload answered with
status 500 performs the exchange and returns `nil`, that is success, not a
generic error. -/
theorem postRequest_server_error_returns_nil :
    postRequest (sampleEnv (.ok 131072) [49, 10] 500 "") "3e35ba1ffe2ab27d72b59d24cbd40fa5"
        "movie.srt" "SubDB/1.0 (cli/1.0; http://example.org)"
      = ⟨[.open "movie.srt",
          .http (postReq "3e35ba1ffe2ab27d72b59d24cbd40fa5" "movie.srt"
            "SubDB/1.0 (cli/1.0; http://example.org)" [49, 10])],
         .returns none⟩ := by
  decide

/-- C7: when the subtitle file opens, the request is built and the exchange
completes with a response, `postRequest` returns no error for status 201,
`ErrDuplicated` for 403 and `ErrInvalidMediaType` for 415; the three outcomes
are pairwise distinct, the two errors being non-nil. -/
theorem postRequest_status_mapping (env : Env) (hash subtitleFile userAgent : String)
    (content : List Nat) (resp : Response)
    (ho : env.openFile subtitleFile = .ok content)
    (hr : env.newRequest "POST" (endPoint ++ "/?action=upload") = none)
    (ht : env.roundTrip (postReq hash subtitleFile userAgent content) = .ok resp) :
    (resp.status = 201 → (postRequest env hash subtitleFile userAgent).out = .returns none)
      ∧ (resp.status = 403 →
          (postRequest env hash subtitleFile userAgent).out = .returns (some .ErrDuplicated))
      ∧ (resp.status = 415 →
          (postRequest env hash subtitleFile userAgent).out
            = .returns (some .ErrInvalidMediaType))
      ∧ (none : Option Error) ≠ some .ErrDuplicated
      ∧ (none : Option Error) ≠ some .ErrInvalidMediaType
      ∧ (some Error.ErrDuplicated) ≠ some .ErrInvalidMediaType := by
  refine ⟨?_, ?_, ?_, by decide, by decide, by decide⟩
  · intro h
    simp [postRequest, ho, hr, ht, h]
  · intro h
    simp [postRequest, ho, hr, ht, h]
  · intro h
    simp [postRequest, ho, hr, ht, h]

/-- An upload answered with 403. -/
theorem postRequest_status_mapping_witness :
    (postRequest (sampleEnv (.ok 131072) [49, 10] 403 "") "00" "movie.srt" "agent").out
      = .returns (some .ErrDuplicated) :=
  (postRequest_status_mapping (sampleEnv (.ok 131072) [49, 10] 403 "") "00" "movie.srt" "agent"
    [49, 10] ⟨403, .ok ""⟩ rfl rfl rfl).2.1 rfl

/-- C4: with a non-empty user agent, a well-formed request and an exchange
answered with status `s` and body `b`, `getRequest` returns `(b, nil)` for
200, `("", ErrNoSubtitle)` for 404, and for every other status (in particular
every other non-2xx one) `("", e)` with `e` a non-nil error whose message is
`http.StatusText(s)`; and in no run at all is a non-empty body returned
together with an error. -/
theorem getRequest_status_mapping (env : Env) (params userAgent : String) (s : Nat) (b : String)
    (hua : userAgent ≠ "")
    (hr : env.newRequest "GET" (sandboxEndPoint ++ "/?" ++ params) = none)
    (ht : env.roundTrip (getReq params userAgent) = .ok ⟨s, .ok b⟩) :
    (s = 200 → (getRequest env params userAgent).out = .returns (b, none))
      ∧ (s = 404 → (getRequest env params userAgent).out = .returns ("", some .ErrNoSubtitle))
      ∧ (s ≠ 200 → s ≠ 404 →
          (getRequest env params userAgent).out
              = .returns ("", some (.text (env.statusText s)))
            ∧ (Error.text (env.statusText s)).message = env.statusText s)
      ∧ (∀ (env' : Env) (params' userAgent' body : String) (err : Error),
          (getRequest env' params' userAgent').out = .returns (body, some err) → body = "") := by
  refine ⟨?_, ?_, ?_, ?_⟩
  · intro h
    simp [getRequest, hua, hr, ht, h]
  · intro h
    simp [getRequest, hua, hr, ht, h]
  · intro h1 h2
    simp [getRequest, hua, hr, ht, h1, h2, Error.message]
  · intro env' params' userAgent' body err h
    unfold getRequest at h
    split at h
    · simp at h; exact h.1.symm
    · split at h
      · simp at h; exact h.1.symm
      · dsimp only at h
        split at h
        · simp at h; exact h.1.symm
        · split at h
          · simp at h; exact h.1.symm
          · split at h
            · simp at h; exact h.1.symm
            · split at h
              · simp at h; exact h.1.symm
              · simp at h

/-- A search answered with 500. -/
theorem getRequest_status_mapping_witness :
    (getRequest (sampleEnv (.ok 131072) [] 500 "oops") "action=languages" "agent").out
      = .returns ("", some (.text "Internal Server Error")) :=
  ((getRequest_status_mapping (sampleEnv (.ok 131072) [] 500 "oops") "action=languages" "agent"
    500 "oops" (by decide) rfl rfl).2.2.1 (by decide) (by decide)).1

/-! ## `strings.Split` and the list operations -/

theorem Count_eq_count (s : List Char) (c : Char) : Count s c = s.count c := by
  induction s with
  | nil => rfl
  | cons x xs ih =>
    by_cases h : x = c
    · subst h; simp [Count, ih]
    · have h' : ¬ (x == c) = true := by simpa using h
      simp [Count, h, ih, List.count_cons, h']

theorem Index_none (s : List Char) (c : Char) (h : Index s c = none) : c ∉ s := by
  induction s with
  | nil => simp
  | cons x xs ih =>
    by_cases hx : x = c
    · simp [Index, hx] at h
    · simp only [Index, hx, if_false, Option.map_eq_none'] at h
      simp only [List.mem_cons, not_or]
      exact ⟨fun e => hx e.symm, ih h⟩

theorem Index_some (s : List Char) (c : Char) (m : Nat) (h : Index s c = some m) :
    s = s.take m ++ c :: s.drop (m + 1) ∧ c ∉ s.take m := by
  induction s generalizing m with
  | nil => simp [Index] at h
  | cons x xs ih =>
    by_cases hx : x = c
    · simp only [Index, hx, if_true, Option.some.injEq] at h
      subst h
      simp [hx]
    · simp only [Index, hx, if_false, Option.map_eq_some'] at h
      obtain ⟨k, hk, rfl⟩ := h
      obtain ⟨h1, h2⟩ := ih k hk
      refine ⟨?_, ?_⟩
      · simp only [List.take_succ_cons, List.drop_succ_cons, List.cons_append]
        rw [← h1]
      · simp only [List.take_succ_cons, List.mem_cons, not_or]
        exact ⟨fun e => hx e.symm, h2⟩

theorem Count_split (s : List Char) (c : Char) (m : Nat) (h : Index s c = some m) :
    Count s c = Count (s.drop (m + 1)) c + 1 := by
  obtain ⟨h1, h2⟩ := Index_some s c m h
  rw [Count_eq_count, Count_eq_count]
  conv_lhs => rw [h1]
  rw [List.count_append, List.count_cons_self, List.count_eq_zero_of_not_mem h2]
  omega

theorem Count_zero_of_not_mem (s : List Char) (c : Char) (h : c ∉ s) : Count s c = 0 := by
  rw [Count_eq_count, List.count_eq_zero_of_not_mem h]

/-- The loop run with `Count s c` cuts yields `Count s c + 1` pieces. -/
theorem genSplitLoop_length (k : Nat) (s : List Char) (c : Char) (hk : k = Count s c) :
    (genSplitLoop k s c).length = k + 1 := by
  induction k generalizing s with
  | zero => rfl
  | succ k ih =>
    unfold genSplitLoop
    cases hi : Index s c with
    | none =>
      have := Count_zero_of_not_mem s c (Index_none s c hi)
      omega
    | some m =>
      have := Count_split s c m hi
      simp only [List.length_cons]
      rw [ih (s.drop (m + 1)) (by omega)]

theorem genSplitLoop_no_sep (k : Nat) (s : List Char) (c : Char) (hk : k = Count s c) :
    ∀ e ∈ genSplitLoop k s c, c ∉ e := by
  induction k generalizing s with
  | zero =>
    intro e he
    simp only [genSplitLoop, List.mem_singleton] at he
    subst he
    intro hmem
    have : 0 < List.count c e := List.count_pos_iff.mpr hmem
    rw [← Count_eq_count] at this
    omega
  | succ k ih =>
    intro e he
    unfold genSplitLoop at he
    cases hi : Index s c with
    | none =>
      have := Count_zero_of_not_mem s c (Index_none s c hi)
      omega
    | some m =>
      rw [hi] at he
      simp only [List.mem_cons] at he
      have hc := Count_split s c m hi
      rcases he with rfl | he
      · exact (Index_some s c m hi).2
      · exact ih (s.drop (m + 1)) (by omega) e he

theorem genSplitLoop_join (k : Nat) (s : List Char) (c : Char) :
    ∃ a rest, genSplitLoop k s c = a :: rest ∧ a ++ rest.flatMap (fun e => c :: e) = s := by
  induction k generalizing s with
  | zero => exact ⟨s, [], rfl, by simp⟩
  | succ k ih =>
    unfold genSplitLoop
    cases hi : Index s c with
    | none => exact ⟨s, [], rfl, by simp⟩
    | some m =>
      obtain ⟨a, rest, hg, hj⟩ := ih (s.drop (m + 1))
      refine ⟨s.take m, a :: rest, by dsimp only; rw [hg], ?_⟩
      rw [List.flatMap_cons, List.cons_append, hj]
      exact (Index_some s c m hi).1.symm

theorem flatMap_mk_data (c : Char) (xs : List (List Char)) :
    ((xs.map String.mk).flatMap fun a => (String.singleton c).data ++ a.data)
      = xs.flatMap fun e => c :: e := by
  induction xs with
  | nil => rfl
  | cons x xs ih =>
    rw [List.map_cons, List.flatMap_cons, List.flatMap_cons, ih]
    rfl

theorem intercalate_go_data (acc sep : String) (l : List String) :
    (String.intercalate.go acc sep l).data
      = acc.data ++ l.flatMap (fun a => sep.data ++ a.data) := by
  induction l generalizing acc with
  | nil => simp [String.intercalate.go]
  | cons a as ih =>
    simp only [String.intercalate.go, ih, String.data_append, List.flatMap_cons,
      List.append_assoc]

/-- Joining the pieces of `Split` with the separator gives the string back. -/
theorem Split_join (b : String) (c : Char) :
    String.intercalate (String.singleton c) (Split b c) = b := by
  obtain ⟨a, rest, hg, hj⟩ := genSplitLoop_join
    (min (Count b.data c + 1) (b.data.length + 1) - 1) b.data c
  apply String.ext
  simp only [Split, hg, List.map_cons, String.intercalate, intercalate_go_data]
  rw [← hj, flatMap_mk_data]

theorem Count_le_length (s : List Char) (c : Char) : Count s c ≤ s.length := by
  rw [Count_eq_count]
  exact List.count_le_length c s

theorem Split_length (b : String) (c : Char) :
    (Split b c).length = b.data.count c + 1 := by
  have h := Count_le_length b.data c
  have e : min (Count b.data c + 1) (b.data.length + 1) - 1 = Count b.data c := by omega
  simp only [Split, List.length_map, e]
  rw [genSplitLoop_length _ _ _ rfl, Count_eq_count]

theorem Split_no_sep (b : String) (c : Char) : ∀ e ∈ Split b c, c ∉ e.data := by
  have h := Count_le_length b.data c
  have e : min (Count b.data c + 1) (b.data.length + 1) - 1 = Count b.data c := by omega
  intro x hx
  simp only [Split, e, List.mem_map] at hx
  obtain ⟨l, hl, rfl⟩ := hx
  exact genSplitLoop_no_sep _ _ _ rfl l hl


/-- A file that stat reports large enough and that opens with at least 64 KiB
is fingerprinted without error. -/
theorem hashHelper_ok (env : Env) (fileName : String) (size : Nat) (data : List Nat)
    (hs : env.stat fileName = .ok size) (hge : minFileSize ≤ size)
    (ho : env.openFile fileName = .ok data) (hl : readSize ≤ data.length) :
    hashHelper env fileName = ⟨[.stat fileName, .open fileName],
      .returns (hexEncode (md5Sum (data.take readSize ++ data.drop (data.length - readSize))),
        none)⟩ := by
  have hlt : ¬ size < minFileSize := by omega
  unfold hashHelper osStat
  rw [hs]
  simp only [IsNotExist, Bool.false_eq_true, if_false, hlt]
  rw [ho]
  dsimp only
  rw [hash_of_long fileName data hl]

theorem Languages_of_body (env : Env) (a : API) (b : String)
    (h : (getRequest env "action=languages" a.userAgent).out = .returns (b, none)) :
    (API.Languages env a).out = .returns (Split b ',', none) := by
  unfold API.Languages Run.andThen
  rw [h]

theorem Search_of_body (env : Env) (a : API) (fileName fp b : String)
    (hh : (hashHelper env fileName).out = .returns (fp, none))
    (h : (getRequest env ("action=search&hash=" ++ fp ++ "&versions") a.userAgent).out
      = .returns (b, none)) :
    (API.Search env a fileName).out = .returns (Split b ',', none) := by
  unfold API.Search Run.andThen
  rw [hh]
  dsimp only
  rw [h]

/-- C8: the comma split of a body `b` has (number of commas in `b`) + 1
elements, none of them contains a comma, joined with "," they give back `b`
(so nothing is trimmed), the three bodies of the specification split as
stated, and `Languages` and `Search` return exactly this split of the body of
a successful response. -/
theorem Split_commas (b : String) :
    (Split b ',').length = b.data.count ',' + 1
      ∧ (∀ e ∈ Split b ',', ',' ∉ e.data)
      ∧ String.intercalate "," (Split b ',') = b
      ∧ Split "en,fr,es" ',' = ["en", "fr", "es"]
      ∧ Split "en" ',' = ["en"]
      ∧ Split "" ',' = [""]
      ∧ Split " en , fr" ',' = [" en ", " fr"]
      ∧ (∀ (env : Env) (a : API),
          (getRequest env "action=languages" a.userAgent).out = .returns (b, none) →
          (API.Languages env a).out = .returns (Split b ',', none))
      ∧ (∀ (env : Env) (a : API) (fileName fp : String),
          (hashHelper env fileName).out = .returns (fp, none) →
          (getRequest env ("action=search&hash=" ++ fp ++ "&versions") a.userAgent).out
            = .returns (b, none) →
          (API.Search env a fileName).out = .returns (Split b ',', none)) :=
  ⟨Split_length b ',', Split_no_sep b ',', Split_join b ',', by decide, by decide, by decide,
    by decide, fun env a h => Languages_of_body env a b h,
    fun env a fileName fp hh h => Search_of_body env a fileName fp b hh h⟩

theorem sampleData_readable (x y : Nat) (mid : List Nat) :
    readSize ≤ (sampleData 65536 x y mid).length :=
  le_of_le_of_eq (by rw [readSize_eq]; omega) (sampleData_length 65536 x y mid).symm

theorem sample_hashHelper (status : Nat) (body : String) (fileName : String) :
    hashHelper (sampleEnv (.ok 131072) (sampleData 65536 0 255 []) status body) fileName
      = ⟨[.stat fileName, .open fileName], .returns (sampleFingerprint, none)⟩ :=
  hashHelper_ok _ fileName 131072 (sampleData 65536 0 255 []) rfl
    (le_of_eq minFileSize_eq) rfl (sampleData_readable 0 255 [])

/-- A server answering 200 with the body "en,fr,es". -/
theorem Split_commas_witness :
    (API.Languages (sampleEnv (.ok 131072) (sampleData 65536 0 255 []) 200 "en,fr,es")
        ⟨"agent"⟩).out = .returns (["en", "fr", "es"], none)
      ∧ (API.Search (sampleEnv (.ok 131072) (sampleData 65536 0 255 []) 200 "en,fr,es")
        ⟨"agent"⟩ "movie.avi").out = .returns (["en", "fr", "es"], none) :=
  ⟨((Split_commas "en,fr,es").2.2.2.2.2.2.2.1
      (sampleEnv (.ok 131072) (sampleData 65536 0 255 []) 200 "en,fr,es") ⟨"agent"⟩ rfl).trans
     (congrArg (fun l => Outcome.returns (l, none)) (Split_commas "en,fr,es").2.2.2.1),
   ((Split_commas "en,fr,es").2.2.2.2.2.2.2.2
      (sampleEnv (.ok 131072) (sampleData 65536 0 255 []) 200 "en,fr,es") ⟨"agent"⟩ "movie.avi" sampleFingerprint
     (congrArg Run.out (sample_hashHelper 200 "en,fr,es" "movie.avi")) rfl).trans
     (congrArg (fun l => Outcome.returns (l, none)) (Split_commas "en,fr,es").2.2.2.1)⟩

/-! ## `strings.ToLower` and the query of `Download` -/

theorem asciiLower_of_not_upper (c : Char) (h : ¬ isUpperASCII c) : asciiLower c = c := by
  unfold isUpperASCII at h
  simp only [asciiLower, h, if_false]

theorem asciiLower_of_upper (c : Char) (h : isUpperASCII c) :
    asciiLower c = Char.ofNat (c.toNat + 32) := by
  unfold isUpperASCII at h
  simp only [asciiLower, h, and_self, if_true]
  rfl

theorem upper_cases (c : Char) (h : isUpperASCII c) (P : Char → Prop)
    (hP : ∀ n, 65 ≤ n → n ≤ 90 → P (Char.ofNat n)) : P c := by
  have e : c = Char.ofNat c.toNat := (Char.ofNat_toNat c).symm
  rw [e]
  exact hP c.toNat h.1 h.2

theorem asciiLower_upper_facts (n : Nat) (h1 : 65 ≤ n) (h2 : n ≤ 90) :
    ¬ isUpperASCII (asciiLower (Char.ofNat n))
      ∧ (asciiLower (Char.ofNat n)).toNat ≤ 0x7F
      ∧ (Char.ofNat n).toNat ≤ 0x7F
      ∧ (asciiLower (Char.ofNat n)).toNat = n + 32 := by
  interval_cases n <;> decide

theorem asciiLower_not_upper (c : Char) : ¬ isUpperASCII (asciiLower c) := by
  by_cases h : isUpperASCII c
  · exact upper_cases c h (fun x => ¬ isUpperASCII (asciiLower x))
      (fun n h1 h2 => (asciiLower_upper_facts n h1 h2).1)
  · rw [asciiLower_of_not_upper c h]
    exact h

theorem asciiLower_ascii (c : Char) (hc : c.toNat ≤ 0x7F) : (asciiLower c).toNat ≤ 0x7F := by
  by_cases h : isUpperASCII c
  · exact upper_cases c h (fun x => (asciiLower x).toNat ≤ 0x7F)
      (fun n h1 h2 => (asciiLower_upper_facts n h1 h2).2.1)
  · rw [asciiLower_of_not_upper c h]
    exact hc

theorem asciiLower_idem (c : Char) : asciiLower (asciiLower c) = asciiLower c :=
  asciiLower_of_not_upper _ (asciiLower_not_upper c)

theorem upper_ascii (c : Char) (h : isUpperASCII c) : c.toNat ≤ 0x7F := by
  have := h.2
  have e : 'Z'.toNat = 90 := by decide
  omega

/-- The function `strings.ToLower` maps every rune through `unicode.ToLower`:
the two ASCII shortcuts compute the same string. -/
theorem ToLower_eq_map (tbl : Char → Char) (s : String) :
    ToLower tbl s = String.mk (s.data.map (unicodeToLower tbl)) := by
  unfold ToLower
  dsimp only
  split
  · rename_i hascii
    have hmap : s.data.map (unicodeToLower tbl) = s.data.map asciiLower := by
      apply List.map_congr_left
      intro c hc
      have := List.all_eq_true.mp hascii c hc
      have hlt : c.toNat < 0x80 := of_decide_eq_true this
      have hle : c.toNat ≤ 0x7F := by omega
      simp only [unicodeToLower, hle, if_true]
    rw [hmap]
    split
    · rename_i hup
      have hid : s.data.map asciiLower = s.data := by
        conv_rhs => rw [← List.map_id s.data]
        apply List.map_congr_left
        intro c hc
        apply asciiLower_of_not_upper
        intro hu
        have : (s.data.any fun c => decide ('A'.toNat ≤ c.toNat ∧ c.toNat ≤ 'Z'.toNat)) = true :=
          List.any_eq_true.mpr ⟨c, hc, decide_eq_true hu⟩
        rw [this] at hup
        exact absurd hup (by decide)
      rw [hid]
    · rfl
  · rfl

theorem unicodeToLower_sameLetter (tbl : Char → Char) (a b : Char) (h : sameLetter a b) :
    unicodeToLower tbl a = unicodeToLower tbl b := by
  have key : ∀ x y : Char, isUpperASCII x → y.toNat = x.toNat + 32 →
      unicodeToLower tbl x = unicodeToLower tbl y := by
    intro x y hx hy
    have hxa := upper_ascii x hx
    have e65 : 'A'.toNat = 65 := by decide
    have e90 : 'Z'.toNat = 90 := by decide
    have hx1 := hx.1
    have hx2 := hx.2
    have hya : y.toNat ≤ 0x7F := by omega
    have hny : ¬ isUpperASCII y := by
      unfold isUpperASCII
      omega
    simp only [unicodeToLower, hxa, hya, if_true]
    rw [asciiLower_of_upper x hx, asciiLower_of_not_upper y hny, ← hy, Char.ofNat_toNat]
  rcases h with rfl | ⟨hu, hn⟩ | ⟨hu, hn⟩
  · rfl
  · exact key a b hu hn
  · exact (key b a hu hn).symm

theorem map_unicodeToLower_sameLetter (tbl : Char → Char) (l1 l2 : List Char)
    (h : List.Forall₂ sameLetter l1 l2) :
    l1.map (unicodeToLower tbl) = l2.map (unicodeToLower tbl) := by
  induction h with
  | nil => rfl
  | cons hab _ ih => rw [List.map_cons, List.map_cons, ih, unicodeToLower_sameLetter tbl _ _ hab]

theorem ToLower_sameLetter (tbl : Char → Char) (s t : String)
    (h : List.Forall₂ sameLetter s.data t.data) : ToLower tbl s = ToLower tbl t := by
  rw [ToLower_eq_map, ToLower_eq_map, map_unicodeToLower_sameLetter tbl _ _ h]

theorem ToLower_idem (tbl : Char → Char) (s : String)
    (H : ∀ r, unicodeToLower tbl (unicodeToLower tbl r) = unicodeToLower tbl r) :
    ToLower tbl (ToLower tbl s) = ToLower tbl s := by
  rw [ToLower_eq_map tbl s, ToLower_eq_map]
  simp only [List.map_map]
  congr 1
  apply List.map_congr_left
  intro c _
  exact H c

theorem unicodeToLower_id_idem (r : Char) :
    unicodeToLower id (unicodeToLower id r) = unicodeToLower id r := by
  unfold unicodeToLower
  by_cases h : r.toNat ≤ 0x7F
  · simp only [h, if_true, asciiLower_ascii r h, asciiLower_idem]
  · simp only [h, if_false, id]

theorem hashHelper_trace (env : Env) (fileName : String) :
    ∀ e ∈ (hashHelper env fileName).trace, e.isHttp = false := by
  unfold hashHelper
  dsimp only
  split
  · simp [Event.isHttp]
  · split
    · simp [Event.isHttp]
    · split
      · simp [Event.isHttp]
      · split
        · simp [Event.isHttp]
        · split <;> simp [Event.isHttp]

theorem getRequest_trace (env : Env) (params userAgent : String) :
    ∀ e ∈ (getRequest env params userAgent).trace, e.isHttp = true →
      e = .http (getReq params userAgent) := by
  unfold getRequest
  split
  · simp
  · split
    · simp [Event.isHttp]
    · dsimp only
      split
      · simp
      · split
        · simp
        · split
          · simp
          · split <;> simp

theorem getRequest_no_agent (env : Env) (params : String) :
    getRequest env params "" = ⟨[], .returns ("", some .ErrNoUserAgent)⟩ := by
  simp [getRequest]

theorem getRequest_sends (env : Env) (params userAgent : String) (hua : userAgent ≠ "")
    (hr : env.newRequest "GET" (sandboxEndPoint ++ "/?" ++ params) = none) :
    (getRequest env params userAgent).trace = [.http (getReq params userAgent)] := by
  unfold getRequest
  rw [if_neg hua, hr]
  dsimp only
  split
  · rfl
  · split
    · rfl
    · split
      · rfl
      · split <;> rfl

theorem getRequest_returns (env : Env) (params userAgent : String) :
    ∃ tr r, getRequest env params userAgent = ⟨tr, .returns r⟩ := by
  unfold getRequest
  split
  · exact ⟨_, _, rfl⟩
  · split
    · exact ⟨_, _, rfl⟩
    · dsimp only
      split
      · exact ⟨_, _, rfl⟩
      · split
        · exact ⟨_, _, rfl⟩
        · split
          · exact ⟨_, _, rfl⟩
          · split <;> exact ⟨_, _, rfl⟩

theorem andThen_returns {α β : Type} (tr : List Event) (v : α) (k : α → Run β) :
    (⟨tr, .returns v⟩ : Run α).andThen k = ⟨tr ++ (k v).trace, (k v).out⟩ := rfl

theorem andThen_panics {α β : Type} (tr : List Event) (k : α → Run β) :
    (⟨tr, .panics⟩ : Run α).andThen k = ⟨tr, .panics⟩ := rfl

theorem Download_trace_of_hash (env : Env) (a : API) (fileName langCode fp : String)
    (tr : List Event) (hh : hashHelper env fileName = ⟨tr, .returns (fp, none)⟩) :
    (API.Download env a fileName langCode).trace
        = tr ++ (getRequest env (downloadParams env.lowerTable fp langCode) a.userAgent).trace := by
  obtain ⟨tr2, r, hg⟩ := getRequest_returns env (downloadParams env.lowerTable fp langCode)
    a.userAgent
  rw [hg]
  unfold downloadParams at hg
  unfold API.Download
  rw [hh, andThen_returns]
  dsimp only
  rw [hg, andThen_returns]
  obtain ⟨b, e⟩ := r
  cases e <;> simp

theorem Download_trace_of_fail (env : Env) (a : API) (fileName langCode : String)
    (h : ∀ fp, (hashHelper env fileName).out ≠ .returns (fp, none)) :
    ∀ e ∈ (API.Download env a fileName langCode).trace, e.isHttp = false := by
  have ht := hashHelper_trace env fileName
  unfold API.Download
  generalize hashHelper env fileName = r at h ht ⊢
  obtain ⟨tr, out⟩ := r
  cases out with
  | panics => rw [andThen_panics]; exact ht
  | returns v =>
    obtain ⟨fp, e⟩ := v
    cases e with
    | none => exact absurd rfl (h fp)
    | some err =>
      rw [andThen_returns]
      simpa using ht

/-- C10: every HTTP request of `Download` is the GET request whose query
string is "action=download&hash=" followed by the fingerprint, "&language="
and the lower-cased language code, and that request is sent whenever the
fingerprint is computed, the user agent is set and the request is well formed;
two language codes that differ only in the case of ASCII letters give the same
run, in particular "EN" and "en"; and, the case table being idempotent,
lower-casing the code beforehand changes nothing. -/
theorem Download_query (env : Env) (a : API) (fileName langCode : String) :
    (∀ req, Event.http req ∈ (API.Download env a fileName langCode).trace →
        ∃ fp, (hashHelper env fileName).out = .returns (fp, none)
          ∧ req = getReq ("action=download&hash=" ++ fp ++ "&language=" ++
              ToLower env.lowerTable langCode) a.userAgent
          ∧ req.url = sandboxEndPoint ++ "/?" ++ ("action=download&hash=" ++ fp ++
              "&language=" ++ ToLower env.lowerTable langCode))
      ∧ (∀ fp, (hashHelper env fileName).out = .returns (fp, none) → a.userAgent ≠ "" →
          env.newRequest "GET" (sandboxEndPoint ++ "/?" ++ ("action=download&hash=" ++ fp ++
            "&language=" ++ ToLower env.lowerTable langCode)) = none →
          Event.http (getReq ("action=download&hash=" ++ fp ++ "&language=" ++
            ToLower env.lowerTable langCode) a.userAgent)
              ∈ (API.Download env a fileName langCode).trace)
      ∧ (∀ other : String, List.Forall₂ sameLetter langCode.data other.data →
          API.Download env a fileName other = API.Download env a fileName langCode)
      ∧ API.Download env a fileName "EN" = API.Download env a fileName "en"
      ∧ ((∀ r, unicodeToLower env.lowerTable (unicodeToLower env.lowerTable r)
            = unicodeToLower env.lowerTable r) →
          API.Download env a fileName (ToLower env.lowerTable langCode)
            = API.Download env a fileName langCode) := by
  refine ⟨?_, ?_, ?_, ?_, ?_⟩
  · intro req hreq
    by_cases hex : ∃ fp, (hashHelper env fileName).out = .returns (fp, none)
    · obtain ⟨fp, hfp⟩ := hex
      have hh : hashHelper env fileName = ⟨(hashHelper env fileName).trace, .returns (fp, none)⟩ := by
        rw [← hfp]
      rw [Download_trace_of_hash env a fileName langCode fp _ hh, List.mem_append] at hreq
      rcases hreq with hreq | hreq
      · have := hashHelper_trace env fileName _ hreq
        simp [Event.isHttp] at this
      · have := getRequest_trace env _ _ _ hreq rfl
        unfold downloadParams at this
        exact ⟨fp, hfp, Event.http.inj this, by rw [Event.http.inj this]; rfl⟩
    · have := Download_trace_of_fail env a fileName langCode
        (fun fp hfp => hex ⟨fp, hfp⟩) _ hreq
      simp [Event.isHttp] at this
  · intro fp hfp hua hnr
    have hh : hashHelper env fileName = ⟨(hashHelper env fileName).trace, .returns (fp, none)⟩ := by
      rw [← hfp]
    rw [Download_trace_of_hash env a fileName langCode fp _ hh, List.mem_append]
    right
    unfold downloadParams
    rw [getRequest_sends env _ _ hua hnr]
    exact List.mem_singleton.mpr rfl
  · intro other hrel
    unfold API.Download
    rw [ToLower_sameLetter env.lowerTable langCode other hrel]
  · unfold API.Download
    have e : ToLower env.lowerTable "EN" = ToLower env.lowerTable "en" := rfl
    rw [e]
  · intro H
    unfold API.Download
    rw [ToLower_idem env.lowerTable langCode H]

/-- A download of the sample file with the codes "EN", "eN" and "En". -/
theorem Download_query_witness :
    Event.http (getReq ("action=download&hash=" ++ sampleFingerprint ++ "&language=" ++ "en")
        "agent")
        ∈ (API.Download (sampleEnv (.ok 131072) (sampleData 65536 0 255 []) 200 "1\n")
            ⟨"agent"⟩ "movie.avi" "EN").trace
      ∧ API.Download (sampleEnv (.ok 131072) (sampleData 65536 0 255 []) 200 "1\n")
            ⟨"agent"⟩ "movie.avi" "eN"
          = API.Download (sampleEnv (.ok 131072) (sampleData 65536 0 255 []) 200 "1\n")
            ⟨"agent"⟩ "movie.avi" "En"
      ∧ API.Download (sampleEnv (.ok 131072) (sampleData 65536 0 255 []) 200 "1\n")
            ⟨"agent"⟩ "movie.avi" (ToLower id "EN")
          = API.Download (sampleEnv (.ok 131072) (sampleData 65536 0 255 []) 200 "1\n")
            ⟨"agent"⟩ "movie.avi" "EN" :=
  ⟨(Download_query (sampleEnv (.ok 131072) (sampleData 65536 0 255 []) 200 "1\n")
      ⟨"agent"⟩ "movie.avi" "EN").2.1 sampleFingerprint
      (congrArg Run.out (sample_hashHelper 200 "1\n" "movie.avi")) (by decide) rfl,
   (Download_query (sampleEnv (.ok 131072) (sampleData 65536 0 255 []) 200 "1\n")
      ⟨"agent"⟩ "movie.avi" "En").2.2.1 "eN"
      (.cons (Or.inr (Or.inl ⟨by decide, by decide⟩))
        (.cons (Or.inr (Or.inr ⟨by decide, by decide⟩)) .nil)),
   (Download_query (sampleEnv (.ok 131072) (sampleData 65536 0 255 []) 200 "1\n")
      ⟨"agent"⟩ "movie.avi" "EN").2.2.2.2 unicodeToLower_id_idem⟩


/-! ## Operations without a user agent -/

theorem Search_trace_no_agent (env : Env) (fileName : String) :
    ∀ e ∈ (API.Search env ⟨""⟩ fileName).trace, e.isHttp = false := by
  have ht := hashHelper_trace env fileName
  unfold API.Search
  generalize hashHelper env fileName = r at ht ⊢
  obtain ⟨tr, out⟩ := r
  cases out with
  | panics => rw [andThen_panics]; exact ht
  | returns v =>
    obtain ⟨fp, e⟩ := v
    rw [andThen_returns]
    cases e with
    | none =>
      dsimp only
      rw [getRequest_no_agent, andThen_returns]
      simpa using ht
    | some err => simpa using ht

theorem Download_trace_no_agent (env : Env) (fileName langCode : String) :
    ∀ e ∈ (API.Download env ⟨""⟩ fileName langCode).trace, e.isHttp = false := by
  have ht := hashHelper_trace env fileName
  unfold API.Download
  generalize hashHelper env fileName = r at ht ⊢
  obtain ⟨tr, out⟩ := r
  cases out with
  | panics => rw [andThen_panics]; exact ht
  | returns v =>
    obtain ⟨fp, e⟩ := v
    rw [andThen_returns]
    cases e with
    | none =>
      dsimp only
      rw [getRequest_no_agent, andThen_returns]
      simpa using ht
    | some err => simpa using ht

/-- C3, as amended: with an empty user agent `Languages` fails with
`ErrNoUserAgent` without any action; `Search` and `Download` reach no HTTP
call whatever the file; they fail with `ErrNoUserAgent` whenever the
fingerprint of the file is computed without error, and when fingerprinting
returns an error they return that error instead. -/
theorem no_user_agent (env : Env) (fileName langCode : String) :
    API.Languages env ⟨""⟩ = ⟨[], .returns ([], some .ErrNoUserAgent)⟩
      ∧ (∀ e ∈ (API.Search env ⟨""⟩ fileName).trace, e.isHttp = false)
      ∧ (∀ e ∈ (API.Download env ⟨""⟩ fileName langCode).trace, e.isHttp = false)
      ∧ (∀ fp, (hashHelper env fileName).out = .returns (fp, none) →
          (API.Search env ⟨""⟩ fileName).out = .returns ([], some .ErrNoUserAgent)
            ∧ (API.Download env ⟨""⟩ fileName langCode).out
                = .returns ("", some .ErrNoUserAgent))
      ∧ (∀ fp err, (hashHelper env fileName).out = .returns (fp, some err) →
          (API.Search env ⟨""⟩ fileName).out = .returns ([], some err)
            ∧ (API.Download env ⟨""⟩ fileName langCode).out = .returns ("", some err)) := by
  refine ⟨?_, Search_trace_no_agent env fileName, Download_trace_no_agent env fileName langCode,
    ?_, ?_⟩
  · unfold API.Languages
    rw [getRequest_no_agent, andThen_returns]
    rfl
  · intro fp hfp
    have hh : hashHelper env fileName = ⟨(hashHelper env fileName).trace, .returns (fp, none)⟩ := by
      rw [← hfp]
    constructor
    · unfold API.Search
      rw [hh, andThen_returns]
      dsimp only
      rw [getRequest_no_agent, andThen_returns]
    · unfold API.Download
      rw [hh, andThen_returns]
      dsimp only
      rw [getRequest_no_agent, andThen_returns]
  · intro fp err hfp
    have hh : hashHelper env fileName
        = ⟨(hashHelper env fileName).trace, .returns (fp, some err)⟩ := by
      rw [← hfp]
    constructor
    · unfold API.Search
      rw [hh, andThen_returns]
    · unfold API.Download
      rw [hh, andThen_returns]

/-- The sample file, and a file of 100 bytes, searched and downloaded without
a user agent. -/
theorem no_user_agent_witness :
    ((API.Search (sampleEnv (.ok 131072) (sampleData 65536 0 255 []) 200 "en") ⟨""⟩
        "movie.avi").out = .returns ([], some .ErrNoUserAgent)
      ∧ (API.Download (sampleEnv (.ok 131072) (sampleData 65536 0 255 []) 200 "en") ⟨""⟩
        "movie.avi" "en").out = .returns ("", some .ErrNoUserAgent))
    ∧ ((API.Search (sampleEnv (.ok 100) [] 200 "en") ⟨""⟩ "clip.avi").out
          = .returns ([], some .ErrSmallFileSize)
      ∧ (API.Download (sampleEnv (.ok 100) [] 200 "en") ⟨""⟩ "clip.avi" "en").out
          = .returns ("", some .ErrSmallFileSize)) :=
  ⟨(no_user_agent (sampleEnv (.ok 131072) (sampleData 65536 0 255 []) 200 "en") "movie.avi"
      "en").2.2.2.1 sampleFingerprint
      (congrArg Run.out (sample_hashHelper 200 "en" "movie.avi")),
   (no_user_agent (sampleEnv (.ok 100) [] 200 "en") "clip.avi" "en").2.2.2.2 ""
      .ErrSmallFileSize rfl⟩

/-- C3 fails as stated: with an empty user agent `Upload` performs the HTTP
POST, with an empty User-Agent header, and returns success; and `Search` on a
file that does not exist fails with the error of `os.Stat`, not with
`ErrNoUserAgent`. -/
theorem no_user_agent_counterexample :
    API.Upload (sampleEnv (.ok 131072) (sampleData 65536 0 255 []) 201 "") ⟨""⟩
        "movie.avi" "movie.srt"
      = ⟨[.stat "movie.avi", .open "movie.avi", .open "movie.srt",
          .http (postReq sampleFingerprint "movie.srt" "" (sampleData 65536 0 255 []))],
         .returns none⟩
    ∧ API.Search (sampleEnv (.error ⟨"stat", "missing.avi", .ENOENT⟩) [] 200 "") ⟨""⟩
        "missing.avi"
      = ⟨[.stat "missing.avi"],
         .returns ([], some (.path ⟨"stat", "missing.avi", .ENOENT⟩))⟩ := by
  constructor
  · unfold API.Upload
    rw [sample_hashHelper, andThen_returns]
    rfl
  · decide

end SubDB
